import Mathlib

/-!
# Verification of the Kiomet client interaction core (`src/client/src/game.rs`)

This file gives a shallow embedding of the drag/selection state machine,
hit tester, safety gate, order dispatch and viewport synchronisation of the
Kiomet script client, and proves the specification claims about them.

Conventions of the embedding:
* `f32` times and coordinates are modelled as rationals (`ℚ`).
* Grid tower identifiers (`TowerId`) are integer pairs.
* External collaborators from the `common` and `kodiak_client` crates
  (world chunk storage, `find_best_path`, `TowerId::closest`,
  `iter_towers_square`, unit strength queries, tower-type queries) are
  abstract data carried in the context: functions and fields whose values
  the theorems quantify over.  The one collaborator whose *behaviour*
  matters to a claim, the engine `RateLimiter`, is modelled from the spec.
-/

namespace Kiomet

/-- Player identifier (opaque in the client; modelled as `Nat`). -/
abbrev PlayerId := Nat

/-- A `TowerId`: integer grid coordinate identifying a territory node. -/
abbrev TowerId := Int × Int

/-- A continuous world-space position (`Vec2` modelled over `ℚ`). -/
abbrev Point := ℚ × ℚ

/-- The `Vec2::distance_squared` operation, used by the hit tester's minimisation. -/
def distanceSquared (a b : Point) : ℚ :=
  (a.1 - b.1) ^ 2 + (a.2 - b.2) ^ 2

/-- The deployable strength of a tower, `source_tower.force_units()`.
The collaborator queries the embedding needs are carried as fields:
whether the strength is empty, whether it contains the protected
`Unit::Ruler`, and `Units::max_edge_distance` (the maximum travel
distance of the strongest unit present). -/
structure Units where
  isEmpty : Bool
  containsRuler : Bool
  maxEdgeDistance : Nat
deriving DecidableEq, Repr

/-- The tower-type queries used by the core: `TowerType::ranged_distance`
and `Tower::generates_mobile_units`. -/
structure TowerType where
  rangedDistance : Nat
  generatesMobileUnits : Bool
deriving DecidableEq, Repr

/-- A `Tower` as read by the interaction core: owner, deployable strength,
optional persistent supply line, and type. -/
structure Tower where
  playerId : Option PlayerId
  forceUnits : Units
  supplyLine : Option (List TowerId)
  towerType : TowerType
deriving DecidableEq, Repr

/-- A viewport rectangle (`ChunkRectangle`), bottom-left and top-right. -/
abbrev ChunkRect := (Int × Int) × (Int × Int)

/-- The outbound orders the core dispatches (`Command`). -/
inductive Command where
  | deploy (path : List TowerId)
  | setSupplyLine (towerId : TowerId) (path : Option (List TowerId))
  | setViewport (rect : ChunkRect)
deriving DecidableEq, Repr

/-- The world collaborator: chunk storage and the path search service.
`findBestPath` receives the (optional) local player id; the Rust code
unwraps it before the call, which is equivalent whenever a player exists. -/
structure World where
  chunk : TowerId → Option Tower
  findBestPath :
    TowerId → TowerId → Nat → Option PlayerId → (TowerId → Bool) →
      Option (List TowerId)

/-- The slice of `ClientContext` the interaction core reads: the world,
the per-tick visibility snapshot, the local player, the clock, and the
grid collaborators used by the hit tester (`TowerId::closest`,
`WorldChunks::iter_towers_square` restricted to the 3x3 neighbourhood,
and `TowerId::as_vec2`). -/
structure Ctx where
  world : World
  visible : TowerId → Bool
  playerId : Option PlayerId
  timeSeconds : ℚ
  closestCell : Point → Option TowerId
  towersSquare : TowerId → List TowerId
  asVec2 : TowerId → Point

/-- The embedding of `is_visible(context, tower_id)`. -/
def isVisible (ctx : Ctx) (towerId : TowerId) : Bool :=
  ctx.visible towerId

/-- The embedding of `is_perilous(context, tower_id)`: a tower is perilous when it exists
and its owner differs from the local player; an absent tower is not. -/
def isPerilous (ctx : Ctx) (towerId : TowerId) : Bool :=
  (((ctx.world.chunk towerId).map
    (fun tower => decide (tower.playerId ≠ ctx.playerId))).getD false)

/-- The peril classification applied to a found path at dispatch time:
`path.iter().any(|&tower_id| is_perilous(context, tower_id))`. -/
def perilousPath (ctx : Ctx) (path : List TowerId) : Bool :=
  path.any (isPerilous ctx)

/-- Modelled from the spec: the spec's §4.5 classification, in which only
"intermediate/destination" nodes — not the path's source — are examined.
Used solely to compare the spec's wording against the code. -/
def perilousPathSpec (ctx : Ctx) (path : List TowerId) : Bool :=
  (path.drop 1).any (isPerilous ctx)

/-- The constant `KiometGame::RULER_DRAG_DELAY = 1.2` (seconds), as a rational. -/
def rulerDragDelay : ℚ := 6 / 5

/-- The per-request `max_edge_distance` derivation (game.rs lines 236-241
and 1062-1067):
`(!strength.is_empty()).then(|| strength.max_edge_distance())`
`.map_or(tower_edge_distance, |e| e.min(tower_edge_distance))`. -/
def deriveMaxEdgeDistance (strength : Units) (towerEdgeDistance : Nat) : Nat :=
  (if strength.isEmpty then none else some strength.maxEdgeDistance).elim
    towerEdgeDistance (fun e => min e towerEdgeDistance)

/-- The in-flight drag: `{ start, current: Option<(TowerId, f32)> }`. -/
structure Drag where
  start : TowerId
  current : Option (TowerId × ℚ)
deriving DecidableEq, Repr

/-- The method `Drag::zip`: flatten an optional drag with a resolved target. -/
def Drag.zip (drag : Option Drag) : Option (TowerId × TowerId × ℚ) :=
  drag.bind fun d =>
    d.current.map fun c => (d.start, c.1, c.2)

/-- The fold step of `get_closest`: keep the new candidate when there is
no best yet or it is strictly closer (squared Euclidean distance) to the
cursor, so the first-enumerated candidate wins ties. -/
def closerCandidate (ctx : Ctx) (point : Point) (best : Option TowerId)
    (pos : TowerId) : Option TowerId :=
  if (best.map fun b =>
      decide (distanceSquared (ctx.asVec2 pos) point <
        distanceSquared (ctx.asVec2 b) point)).getD true
  then some pos else best

/-- The function `get_closest(point, context)`: snap to the nearest grid cell, then
fold over the visible towers of the 3x3 neighbourhood keeping the
closest candidate. -/
def getClosest (point : Point) (ctx : Ctx) : Option TowerId :=
  (ctx.closestCell point).bind fun center =>
    ((ctx.towersSquare center).filter fun towerId =>
      isVisible ctx towerId).foldl (closerCandidate ctx point) none

/-- The method `KiometGame::move_world_space`: while dragging, re-resolve `current`;
a fresh resolution re-stamps the target-change time, an identical one is
kept, and a failed resolution suspends `current` without ending the drag. -/
def moveWorldSpace (worldSpace : Point) (ctx : Ctx) (drag : Option Drag) :
    Option Drag :=
  match drag with
  | none => none
  | some d =>
    match getClosest worldSpace ctx with
    | some closest =>
      if some closest ≠ d.current.map (fun c => c.1) then
        some { d with current := some (closest, ctx.timeSeconds) }
      else
        some d
    | none => some { d with current := none }

/-- The order computed when a drag is released on a distinct existing
tower (game.rs lines 236-280).  `selected` is the selection *after* the
release's own update (`None` unless it already equalled `start`). -/
def dragReleaseOrder (ctx : Ctx) (start current : TowerId)
    (currentStartTime : ℚ) (sourceTower : Tower)
    (selected : Option TowerId) : Option Command :=
  let strength := sourceTower.forceUnits
  let towerEdgeDistance := sourceTower.towerType.rangedDistance
  let maxEdgeDistance := deriveMaxEdgeDistance strength towerEdgeDistance
  let shorterMaxEdgeDistance := decide (maxEdgeDistance ≠ towerEdgeDistance)
  let supplyTowerId := selected.filter fun _ =>
    sourceTower.towerType.generatesMobileUnits && !shorterMaxEdgeDistance
  match ctx.world.findBestPath start current maxEdgeDistance ctx.playerId
      (isVisible ctx) with
  | some path =>
    let perilous := perilousPath ctx path
    if !perilous || !strength.containsRuler
        || decide (currentStartTime + rulerDragDelay ≤ ctx.timeSeconds) then
      some (match supplyTowerId with
        | some towerId =>
          Command.setSupplyLine towerId
            (if sourceTower.supplyLine = some path then none else some path)
        | none => Command.deploy path)
    else
      none
  | none => none

/-- The result of the left-button pointer-up handler. -/
structure PointerUpResult where
  selectedTowerId : Option TowerId
  drag : Option Drag
  command : Option Command
deriving Repr

/-- The left-button pointer-up branch of `KiometGame::peek_mouse`
(game.rs lines 214-289): same-node release toggles the selection;
a release on a distinct existing tower evaluates a path and possibly
dispatches an order; otherwise the selection is cleared.  The drag is
set to `None` in every branch. -/
def pointerUpLeft (ctx : Ctx) (drag : Option Drag)
    (selected : Option TowerId) : PointerUpResult :=
  match Drag.zip drag with
  | some (start, current, currentStartTime) =>
    if start = current then
      { selectedTowerId := if selected = some start then none else some start
        drag := none
        command := none }
    else
      match ctx.world.chunk start, ctx.world.chunk current with
      | some sourceTower, some _destinationTower =>
        let selected := if selected ≠ some start then none else selected
        { selectedTowerId := selected
          drag := none
          command :=
            dragReleaseOrder ctx start current currentStartTime sourceTower
              selected }
      | _, _ =>
        { selectedTowerId := none, drag := none, command := none }
  | none =>
    { selectedTowerId := none, drag := none, command := none }

/-- The Shift+R branch of `KiometGame::update` with a selected tower
(game.rs lines 774-784): clear the selected tower's supply line when it
has one, checking nothing else about the tower. -/
def clearSupplyLineShortcut (ctx : Ctx) (selected : Option TowerId) :
    Option Command :=
  match selected with
  | some towerId =>
    match ctx.world.chunk towerId with
    | some tower =>
      if tower.supplyLine.isSome then
        some (Command.setSupplyLine towerId none)
      else
        none
    | none => none
  | none => none

/-- The liveness branch of `KiometGame::update` (game.rs lines 832-912):
when the player is not alive, the selection and the drag are cleared. -/
def updateLifecycle (alive : Bool) (selected : Option TowerId)
    (drag : Option Drag) : Option TowerId × Option Drag :=
  if alive then (selected, drag) else (none, none)

/-- Modelled from the spec: `kodiak_client::RateLimiter` (engine crate,
not in this repository).  Per §4.6 and §8 it enforces a "minimum
interval between sends"; `update` is called every frame with the frame's
elapsed time, and `ready` consumes the accumulated time when it grants a
send, so sends are at least one period apart. -/
structure RateLimiter where
  period : ℚ
  elapsed : ℚ
deriving DecidableEq, Repr

/-- Modelled from the spec: `RateLimiter::new(period)` starts not ready. -/
def RateLimiter.new (period : ℚ) : RateLimiter :=
  { period := period, elapsed := 0 }

/-- Modelled from the spec: `RateLimiter::update(elapsed)` accumulates
the frame's elapsed time, every frame, send or not. -/
def RateLimiter.update (r : RateLimiter) (dt : ℚ) : RateLimiter :=
  { r with elapsed := r.elapsed + dt }

/-- Modelled from the spec: `RateLimiter::ready()` grants a send exactly
when a full period has accumulated; the accumulator is reset when the
grant is consumed. -/
def RateLimiter.ready (r : RateLimiter) : Bool :=
  decide (r.period ≤ r.elapsed)

/-- The limiter `RateLimiter::new(0.15)` from `KiometGame::new` (game.rs line 140). -/
def setViewportRateLimit₀ : RateLimiter := RateLimiter.new (3 / 20)

/-- The viewport-synchronisation state carried across frames: the rate
limiter and the last-sent rectangle (`context.state.game.set_viewport`). -/
structure ViewportSync where
  rateLimiter : RateLimiter
  lastSent : ChunkRect
deriving DecidableEq, Repr

/-- One frame of viewport synchronisation (game.rs lines 963-969): the
rate limiter is updated first; a `SetViewport` order is dispatched, and
the last-sent rectangle recorded, only when the computed rectangle
differs from the last-sent one and the limiter is ready.  The `ready`
query is only consulted when the rectangle differs (the Rust `&&`
short-circuits). -/
def viewportStep (computed : ChunkRect) (dt : ℚ) (st : ViewportSync) :
    ViewportSync × Option Command :=
  let rl := st.rateLimiter.update dt
  if computed ≠ st.lastSent then
    if rl.ready then
      ({ rateLimiter := { rl with elapsed := 0 }, lastSent := computed },
        some (Command.setViewport computed))
    else
      ({ rateLimiter := rl, lastSent := st.lastSent }, none)
  else
    ({ rateLimiter := rl, lastSent := st.lastSent }, none)

/-- Run viewport synchronisation over a sequence of frames, each giving
the computed rectangle and the frame's elapsed seconds. -/
def viewportRun (frames : List (ChunkRect × ℚ)) (st : ViewportSync) :
    ViewportSync × List (Option Command) :=
  match frames with
  | [] => (st, [])
  | f :: rest =>
    let s1 := viewportStep f.1 f.2 st
    let s2 := viewportRun rest s1.1
    (s2.1, s1.2 :: s2.2)

/-! ### Concrete states used for witnesses and counterexamples -/

/-- A tower owned by player 1 holding a Ruler (non-empty strength). -/
def towerRulerSource : Tower :=
  { playerId := some 1
    forceUnits := { isEmpty := false, containsRuler := true, maxEdgeDistance := 3 }
    supplyLine := none
    towerType := { rangedDistance := 3, generatesMobileUnits := true } }

/-- A tower owned by a foreign player 2. -/
def towerFoe : Tower :=
  { playerId := some 2
    forceUnits := { isEmpty := true, containsRuler := false, maxEdgeDistance := 0 }
    supplyLine := none
    towerType := { rangedDistance := 2, generatesMobileUnits := false } }

/-- A tower owned by player 1, empty strength, no mobile-unit production. -/
def towerHome : Tower :=
  { playerId := some 1
    forceUnits := { isEmpty := true, containsRuler := false, maxEdgeDistance := 0 }
    supplyLine := none
    towerType := { rangedDistance := 2, generatesMobileUnits := false } }

/-- A mobile-unit-producing tower of player 1 with empty strength and no
stored supply line. -/
def towerSupplySource : Tower :=
  { playerId := some 1
    forceUnits := { isEmpty := true, containsRuler := false, maxEdgeDistance := 0 }
    supplyLine := none
    towerType := { rangedDistance := 3, generatesMobileUnits := true } }

/-- Like `towerSupplySource` but already holding the supply line
`[(0,0),(1,0)]`. -/
def towerSupplySourceLine : Tower :=
  { towerSupplySource with supplyLine := some [(0, 0), (1, 0)] }

/-- A tower of player 1 that has a supply line but does not produce
mobile units. -/
def towerNoMobileLine : Tower :=
  { playerId := some 1
    forceUnits := { isEmpty := true, containsRuler := false, maxEdgeDistance := 0 }
    supplyLine := some [(0, 0), (1, 0)]
    towerType := { rangedDistance := 3, generatesMobileUnits := false } }

/-- Build a context from a chunk and path service, with everything
visible, local player 1, clock 0, and inert grid collaborators. -/
def mkCtx (chunk : TowerId → Option Tower)
    (findBestPath : TowerId → TowerId → Nat → Option PlayerId →
      (TowerId → Bool) → Option (List TowerId)) : Ctx :=
  { world := { chunk := chunk, findBestPath := findBestPath }
    visible := fun _ => true
    playerId := some 1
    timeSeconds := 0
    closestCell := fun _ => none
    towersSquare := fun _ => []
    asVec2 := fun towerId => ((towerId.1 : ℚ), (towerId.2 : ℚ)) }

/-- Context for the Ruler-gate witness: a Ruler-holding source at (0,0),
a foreign tower at (1,0), and a path service returning that pair. -/
def ctxRuler : Ctx :=
  mkCtx
    (fun towerId =>
      if towerId = ((0, 0) : TowerId) then some towerRulerSource
      else if towerId = ((1, 0) : TowerId) then some towerFoe
      else none)
    (fun _ _ _ _ _ => some [(0, 0), (1, 0)])

/-- Context for the supply-line witnesses: a mobile-producing source at
(0,0) with no stored supply line, an owned destination at (1,0). -/
def ctxSupply : Ctx :=
  mkCtx
    (fun towerId =>
      if towerId = ((0, 0) : TowerId) then some towerSupplySource
      else if towerId = ((1, 0) : TowerId) then some towerHome
      else none)
    (fun _ _ _ _ _ => some [(0, 0), (1, 0)])

/-- Like `ctxSupply` but the source already stores the found path as its
supply line. -/
def ctxSupplyLine : Ctx :=
  mkCtx
    (fun towerId =>
      if towerId = ((0, 0) : TowerId) then some towerSupplySourceLine
      else if towerId = ((1, 0) : TowerId) then some towerHome
      else none)
    (fun _ _ _ _ _ => some [(0, 0), (1, 0)])

/-- Context holding a tower with a supply line but no mobile-unit
production, for the Shift+R clear counterexample. -/
def ctxNoMobile : Ctx :=
  mkCtx
    (fun towerId =>
      if towerId = ((0, 0) : TowerId) then some towerNoMobileLine
      else none)
    (fun _ _ _ _ _ => none)

/-- Context with a foreign tower at (0,0) and an owned tower at (1,0),
for the peril-classification counterexample. -/
def ctxForeignHead : Ctx :=
  mkCtx
    (fun towerId =>
      if towerId = ((0, 0) : TowerId) then some towerFoe
      else if towerId = ((1, 0) : TowerId) then some towerHome
      else none)
    (fun _ _ _ _ _ => none)

/-- Context with an empty world chunk. -/
def ctxEmpty : Ctx := mkCtx (fun _ => none) (fun _ _ _ _ _ => none)

/-- A fresh viewport-synchronisation state with the 0.15-second limiter
and an origin rectangle recorded as last sent. -/
def vsStart : ViewportSync :=
  { rateLimiter := RateLimiter.new (3 / 20), lastSent := ((0, 0), (0, 0)) }

/-- Context for the hit-tester witness: the cursor cell is (0,0), the
neighbourhood holds (0,0) and (1,0), and everything is visible. -/
def ctxGrid : Ctx :=
  { mkCtx (fun _ => none) (fun _ _ _ _ _ => none) with
    closestCell := fun _ => some (0, 0)
    towersSquare := fun _ => [(0, 0), (1, 0)] }

/-! ### Helper lemmas -/

theorem Drag.zip_eq_some {drag : Option Drag} {s c : TowerId} {t : ℚ} :
    Drag.zip drag = some (s, c, t) ↔ drag = some ⟨s, some (c, t)⟩ := by
  cases drag with
  | none => simp [Drag.zip]
  | some d =>
    obtain ⟨st, cur⟩ := d
    cases cur with
    | none => simp [Drag.zip]
    | some p =>
      obtain ⟨c0, t0⟩ := p
      simp [Drag.zip, and_assoc]

theorem pointerUpLeft_release (ctx : Ctx) {drag : Option Drag}
    (selected : Option TowerId) {s c : TowerId} {t : ℚ} {src dst : Tower}
    (hzip : Drag.zip drag = some (s, c, t)) (hne : s ≠ c)
    (hs : ctx.world.chunk s = some src) (hc : ctx.world.chunk c = some dst) :
    pointerUpLeft ctx drag selected =
      { selectedTowerId := if selected ≠ some s then none else selected
        drag := none
        command := dragReleaseOrder ctx s c t src
          (if selected ≠ some s then none else selected) } := by
  rw [Drag.zip_eq_some] at hzip
  subst hzip
  simp only [pointerUpLeft, Drag.zip, Option.some_bind, Option.map_some']
  rw [if_neg hne]
  rw [hs, hc]

theorem pointerUpLeft_drag_eq_none (ctx : Ctx) (drag : Option Drag)
    (selected : Option TowerId) : (pointerUpLeft ctx drag selected).drag = none := by
  unfold pointerUpLeft
  split
  · split
    · rfl
    · split
      · rfl
      · rfl
  · rfl

theorem isPerilous_eq_true_iff (ctx : Ctx) (towerId : TowerId) :
    isPerilous ctx towerId = true ↔
      ∃ tower, ctx.world.chunk towerId = some tower ∧
        tower.playerId ≠ ctx.playerId := by
  cases h : ctx.world.chunk towerId <;> simp [isPerilous, h]

theorem dragReleaseOrder_ruler_gate {ctx : Ctx} {s c : TowerId} {t : ℚ}
    {src : Tower} (sel : Option TowerId) {path : List TowerId}
    (hpath : ctx.world.findBestPath s c
      (deriveMaxEdgeDistance src.forceUnits src.towerType.rangedDistance)
      ctx.playerId (isVisible ctx) = some path)
    (hper : perilousPath ctx path = true)
    (hruler : src.forceUnits.containsRuler = true) :
    (ctx.timeSeconds < t + rulerDragDelay →
      dragReleaseOrder ctx s c t src sel = none) ∧
    (t + rulerDragDelay ≤ ctx.timeSeconds →
      (dragReleaseOrder ctx s c t src sel).isSome = true) := by
  simp only [dragReleaseOrder]
  rw [hpath]
  simp only [hper, hruler, Bool.not_true, Bool.false_or]
  constructor
  · intro h
    rw [decide_eq_false (not_le.mpr h)]
    rfl
  · intro h
    rw [decide_eq_true h]
    rfl

theorem dragReleaseOrder_supply_value {ctx : Ctx} {s c : TowerId} {t : ℚ}
    {src : Tower} (tid : TowerId) {path : List TowerId}
    (hpath : ctx.world.findBestPath s c
      (deriveMaxEdgeDistance src.forceUnits src.towerType.rangedDistance)
      ctx.playerId (isVisible ctx) = some path)
    (hper : perilousPath ctx path = false)
    (hgen : src.towerType.generatesMobileUnits = true)
    (hshort : deriveMaxEdgeDistance src.forceUnits src.towerType.rangedDistance =
      src.towerType.rangedDistance) :
    dragReleaseOrder ctx s c t src (some tid) =
      some (Command.setSupplyLine tid
        (if src.supplyLine = some path then none else some path)) := by
  simp only [dragReleaseOrder]
  rw [hpath]
  simp [hper, hgen, hshort, Option.filter]

theorem option_filter_eq_some {α : Type} {p : α → Bool} {o : Option α}
    {a : α} (h : o.filter p = some a) : o = some a ∧ p a = true := by
  cases o with
  | none => simp [Option.filter] at h
  | some x =>
    simp only [Option.filter] at h
    split at h
    next hp =>
      cases h
      exact ⟨rfl, hp⟩
    next => cases h

theorem dragReleaseOrder_supply_inv {ctx : Ctx} {s c : TowerId} {t : ℚ}
    {src : Tower} {sel : Option TowerId} {tid : TowerId}
    {p : Option (List TowerId)}
    (h : dragReleaseOrder ctx s c t src sel =
      some (Command.setSupplyLine tid p)) :
    sel = some tid ∧ src.towerType.generatesMobileUnits = true ∧
      deriveMaxEdgeDistance src.forceUnits src.towerType.rangedDistance =
        src.towerType.rangedDistance := by
  simp only [dragReleaseOrder] at h
  split at h
  next path hpath =>
    split at h
    next =>
      rw [Option.some_inj] at h
      cases hfil : sel.filter (fun _ =>
          src.towerType.generatesMobileUnits &&
            !decide (deriveMaxEdgeDistance src.forceUnits
              src.towerType.rangedDistance ≠ src.towerType.rangedDistance)) with
      | none => rw [hfil] at h; cases h
      | some y =>
        rw [hfil] at h
        obtain ⟨hsel, hpred⟩ := option_filter_eq_some hfil
        have hy : y = tid := by
          cases h
          rfl
        subst hy
        refine ⟨hsel, ?_, ?_⟩
        · exact (Bool.and_eq_true_iff.mp hpred).1
        · have := (Bool.and_eq_true_iff.mp hpred).2
          simpa using this
    next => exact absurd h (by simp)
  next => exact absurd h (by simp)

theorem pointerUpLeft_command_inv {ctx : Ctx} {drag : Option Drag}
    {selected : Option TowerId} {cmd : Command}
    (h : (pointerUpLeft ctx drag selected).command = some cmd) :
    ∃ s c t src dst, Drag.zip drag = some (s, c, t) ∧ s ≠ c ∧
      ctx.world.chunk s = some src ∧ ctx.world.chunk c = some dst ∧
      dragReleaseOrder ctx s c t src
        (if selected ≠ some s then none else selected) = some cmd := by
  cases hz : Drag.zip drag with
  | none => simp [pointerUpLeft, hz] at h
  | some trip =>
    obtain ⟨s, c, t⟩ := trip
    by_cases hsc : s = c
    · simp [pointerUpLeft, hz, hsc] at h
    · cases hcs : ctx.world.chunk s with
      | none => simp [pointerUpLeft, hz, hsc, hcs] at h
      | some src =>
        cases hcc : ctx.world.chunk c with
        | none => simp [pointerUpLeft, hz, hsc, hcs, hcc] at h
        | some dst =>
          refine ⟨s, c, t, src, dst, rfl, hsc, hcs, hcc, ?_⟩
          rw [pointerUpLeft_release ctx selected hz hsc hcs hcc] at h
          exact h

theorem closerCandidate_some (ctx : Ctx) (point : Point) (b p : TowerId) :
    closerCandidate ctx point (some b) p =
      if distanceSquared (ctx.asVec2 p) point <
          distanceSquared (ctx.asVec2 b) point then some p else some b := by
  simp [closerCandidate]

theorem closestFold_first_min (ctx : Ctx) (point : Point) :
    ∀ (l : List TowerId) (b : TowerId),
      ∃ x l₁ l₂, l.foldl (closerCandidate ctx point) (some b) = some x ∧
        b :: l = l₁ ++ x :: l₂ ∧
        (∀ y ∈ l₁, distanceSquared (ctx.asVec2 x) point <
          distanceSquared (ctx.asVec2 y) point) ∧
        (∀ y ∈ l₂, distanceSquared (ctx.asVec2 x) point ≤
          distanceSquared (ctx.asVec2 y) point) := by
  intro l
  induction l with
  | nil =>
    intro b
    exact ⟨b, [], [], rfl, rfl, by simp, by simp⟩
  | cons p l ih =>
    intro b
    rw [List.foldl_cons, closerCandidate_some]
    by_cases hlt : distanceSquared (ctx.asVec2 p) point <
        distanceSquared (ctx.asVec2 b) point
    · rw [if_pos hlt]
      obtain ⟨x, l₁, l₂, hfold, heq, hstrict, hle⟩ := ih p
      have hxb : distanceSquared (ctx.asVec2 x) point <
          distanceSquared (ctx.asVec2 b) point := by
        cases l₁ with
        | nil =>
          simp only [List.nil_append, List.cons.injEq] at heq
          rw [← heq.1]
          exact hlt
        | cons a l₁ =>
          simp only [List.cons_append, List.cons.injEq] at heq
          have hp : p ∈ a :: l₁ := by
            rw [heq.1]
            exact List.mem_cons_self a l₁
          exact lt_trans (hstrict p hp) hlt
      refine ⟨x, b :: l₁, l₂, hfold, by simp [heq], ?_, hle⟩
      intro y hy
      rcases List.mem_cons.mp hy with hyb | hyl
      · rw [hyb]
        exact hxb
      · exact hstrict y hyl
    · rw [if_neg hlt]
      obtain ⟨x, l₁, l₂, hfold, heq, hstrict, hle⟩ := ih b
      have hbp : distanceSquared (ctx.asVec2 b) point ≤
          distanceSquared (ctx.asVec2 p) point := le_of_not_lt hlt
      cases l₁ with
      | nil =>
        simp only [List.nil_append, List.cons.injEq] at heq
        obtain ⟨hxb, hl₂⟩ := heq
        refine ⟨x, [], p :: l₂, hfold, by rw [← hxb, ← hl₂]; rfl, by simp, ?_⟩
        intro y hy
        rcases List.mem_cons.mp hy with hyp | hyl
        · rw [hyp, ← hxb]
          exact hbp
        · exact hle y hyl
      | cons a l₁ =>
        simp only [List.cons_append, List.cons.injEq] at heq
        obtain ⟨hab, hl⟩ := heq
        have hxb : distanceSquared (ctx.asVec2 x) point <
            distanceSquared (ctx.asVec2 b) point := by
          have : b ∈ a :: l₁ := by
            rw [hab]
            exact List.mem_cons_self a l₁
          exact hstrict b this
        refine ⟨x, b :: p :: l₁, l₂, hfold, by simp [hl], ?_, hle⟩
        intro y hy
        rcases List.mem_cons.mp hy with hyb | hy2
        · rw [hyb]
          exact hxb
        rcases List.mem_cons.mp hy2 with hyp | hyl
        · rw [hyp]
          exact lt_of_lt_of_le hxb hbp
        · exact hstrict y (List.mem_cons_of_mem a hyl)

theorem viewportStep_eq (computed : ChunkRect) (dt : ℚ) (st : ViewportSync) :
    viewportStep computed dt st =
      if computed ≠ st.lastSent ∧
          st.rateLimiter.period ≤ st.rateLimiter.elapsed + dt then
        ({ rateLimiter := ⟨st.rateLimiter.period, 0⟩, lastSent := computed },
          some (Command.setViewport computed))
      else
        ({ rateLimiter := ⟨st.rateLimiter.period, st.rateLimiter.elapsed + dt⟩,
           lastSent := st.lastSent }, none) := by
  simp only [viewportStep, RateLimiter.update, RateLimiter.ready,
    decide_eq_true_eq]
  split_ifs <;> first | rfl | tauto

theorem viewportStep_period (computed : ChunkRect) (dt : ℚ)
    (st : ViewportSync) :
    ((viewportStep computed dt st).1).rateLimiter.period =
      st.rateLimiter.period := by
  rw [viewportStep_eq]
  split_ifs <;> rfl

theorem viewportStep_none_elapsed (computed : ChunkRect) (dt : ℚ)
    (st : ViewportSync) (h : (viewportStep computed dt st).2 = none) :
    ((viewportStep computed dt st).1).rateLimiter.elapsed =
      st.rateLimiter.elapsed + dt := by
  rw [viewportStep_eq] at h ⊢
  split_ifs at h ⊢
  rfl

theorem viewportStep_some {computed : ChunkRect} {dt : ℚ}
    {st : ViewportSync} {cmd : Command}
    (h : (viewportStep computed dt st).2 = some cmd) :
    computed ≠ st.lastSent ∧ cmd = Command.setViewport computed ∧
      st.rateLimiter.period ≤ st.rateLimiter.elapsed + dt ∧
      ((viewportStep computed dt st).1).rateLimiter.elapsed = 0 := by
  rw [viewportStep_eq] at h ⊢
  split_ifs at h ⊢ with hcond
  refine ⟨hcond.1, ?_, hcond.2, rfl⟩
  simpa using h.symm

theorem viewportRun_period (frames : List (ChunkRect × ℚ)) (st : ViewportSync) :
    ((viewportRun frames st).1).rateLimiter.period =
      st.rateLimiter.period := by
  induction frames generalizing st with
  | nil => rfl
  | cons f rest ih =>
    simp only [viewportRun]
    rw [ih]
    exact viewportStep_period f.1 f.2 st

theorem viewportRun_quiet_elapsed (frames : List (ChunkRect × ℚ)) :
    ∀ st : ViewportSync,
      ((viewportRun frames st).2.all fun o => o.isNone) = true →
      ((viewportRun frames st).1).rateLimiter.elapsed =
        st.rateLimiter.elapsed + (frames.map Prod.snd).sum := by
  induction frames with
  | nil =>
    intro st _
    simp [viewportRun]
  | cons f rest ih =>
    intro st hall
    simp only [viewportRun, List.all_cons, Bool.and_eq_true] at hall
    obtain ⟨hnone, hrest⟩ := hall
    have hstep : (viewportStep f.1 f.2 st).2 = none :=
      Option.isNone_iff_eq_none.mp hnone
    simp only [viewportRun]
    rw [ih _ hrest, viewportStep_none_elapsed f.1 f.2 st hstep]
    simp only [List.map_cons, List.sum_cons]
    ring

/-! ### Claim theorems -/

/-- C1: when a pointer-up finalizes a drag whose found path is perilous
and whose source strength contains the protected Ruler unit, no order is
dispatched while `now - ts < RULER_DRAG_DELAY` (1.2 seconds, `ts` being
the timestamp of the last drag-target change), and an order is dispatched
once `now - ts ≥ RULER_DRAG_DELAY`. -/
theorem ruler_drag_delay_gates_dispatch
    (ctx : Ctx) (drag : Option Drag) (selected : Option TowerId)
    (start current : TowerId) (ts : ℚ) (src dst : Tower)
    (path : List TowerId)
    (hzip : Drag.zip drag = some (start, current, ts))
    (hne : start ≠ current)
    (hs : ctx.world.chunk start = some src)
    (hc : ctx.world.chunk current = some dst)
    (hpath : ctx.world.findBestPath start current
      (deriveMaxEdgeDistance src.forceUnits src.towerType.rangedDistance)
      ctx.playerId (isVisible ctx) = some path)
    (hper : perilousPath ctx path = true)
    (hruler : src.forceUnits.containsRuler = true) :
    (ctx.timeSeconds - ts < rulerDragDelay →
      (pointerUpLeft ctx drag selected).command = none) ∧
    (rulerDragDelay ≤ ctx.timeSeconds - ts →
      ((pointerUpLeft ctx drag selected).command).isSome = true) := by
  rw [pointerUpLeft_release ctx selected hzip hne hs hc]
  obtain ⟨h1, h2⟩ := @dragReleaseOrder_ruler_gate ctx start current ts src
    (if selected ≠ some start then none else selected) path hpath hper hruler
  constructor
  · intro h
    exact h1 (by linarith)
  · intro h
    exact h2 (by linarith)

/-- Witness for C1: a concrete Ruler-carrying drag over a foreign tower,
released at the instant of the last target change, dispatches nothing. -/
theorem ruler_drag_delay_gates_dispatch_witness :
    (pointerUpLeft ctxRuler (some ⟨(0, 0), some ((1, 0), 0)⟩) none).command =
      none :=
  (ruler_drag_delay_gates_dispatch ctxRuler
    (some ⟨(0, 0), some ((1, 0), 0)⟩) none (0, 0) (1, 0) 0
    towerRulerSource towerFoe [(0, 0), (1, 0)] rfl (by decide) rfl rfl rfl
    (by decide) rfl).1
    (by norm_num [ctxRuler, mkCtx, rulerDragDelay])

/-- C2 counterexample: the Shift+R shortcut sends a SetSupplyLine for any
selected tower that has a supply line, here one whose type does not
generate mobile units — so not every SetSupplyLine the program sends
names a mobile-unit-producing tower. -/
theorem setSupplyLine_shortcut_counterexample :
    clearSupplyLineShortcut ctxNoMobile (some (0, 0)) =
      some (Command.setSupplyLine (0, 0) none) ∧
    ctxNoMobile.world.chunk (0, 0) = some towerNoMobileLine ∧
    towerNoMobileLine.towerType.generatesMobileUnits = false := by
  refine ⟨?_, ?_, rfl⟩ <;> rfl

/-- C2 (amended): every SetSupplyLine dispatched from the pointer-up drag
finalization names a tower that generates mobile units and whose derived
max-edge-distance equals its intrinsic ranged distance; the Shift+R
supply-line clears are exempt. -/
theorem setSupplyLine_requires_mobile_generator
    {ctx : Ctx} {drag : Option Drag} {selected : Option TowerId}
    {tid : TowerId} {p : Option (List TowerId)}
    (h : (pointerUpLeft ctx drag selected).command =
      some (Command.setSupplyLine tid p)) :
    ∃ src, ctx.world.chunk tid = some src ∧
      src.towerType.generatesMobileUnits = true ∧
      deriveMaxEdgeDistance src.forceUnits src.towerType.rangedDistance =
        src.towerType.rangedDistance := by
  obtain ⟨s, c, t, src, dst, hz, hne, hs, hc, hcmd⟩ :=
    pointerUpLeft_command_inv h
  obtain ⟨hsel, hgen, hshort⟩ := dragReleaseOrder_supply_inv hcmd
  have hts : tid = s := by
    by_cases hx : selected ≠ some s
    · rw [if_pos hx] at hsel
      cases hsel
    · rw [if_neg hx] at hsel
      push_neg at hx
      rw [hx] at hsel
      exact (Option.some_inj.mp hsel).symm
  rw [hts]
  exact ⟨src, hs, hgen, hshort⟩

/-- Witness for C2 (amended): a concrete supply-line dispatch, from which
the theorem recovers the mobile-production and full-range facts. -/
theorem setSupplyLine_requires_mobile_generator_witness :
    ∃ src, ctxSupply.world.chunk (0, 0) = some src ∧
      src.towerType.generatesMobileUnits = true ∧
      deriveMaxEdgeDistance src.forceUnits src.towerType.rangedDistance =
        src.towerType.rangedDistance :=
  @setSupplyLine_requires_mobile_generator ctxSupply
    (some ⟨(0, 0), some ((1, 0), 0)⟩) (some (0, 0))
    (0, 0) (some [(0, 0), (1, 0)]) (by decide)

/-- C3 counterexample: when the node under an active drag stops resolving
(fog or deletion), the pointer-move handler only suspends the drag's
current target; the Drag itself survives, so it is not "unconditionally
cleared". -/
theorem drag_persists_when_target_vanishes :
    moveWorldSpace (0, 0) ctxEmpty (some ⟨(0, 0), some ((1, 0), 0)⟩) =
      some ⟨(0, 0), none⟩ ∧
    moveWorldSpace (0, 0) ctxEmpty (some ⟨(0, 0), some ((1, 0), 0)⟩) ≠
      none := by
  refine ⟨rfl, ?_⟩
  intro h
  cases h

/-- C3 (amended): when the cursor no longer resolves to a visible node
during a drag, only `current` is suspended (set to `None`) and the drag
persists; the Drag and SelectedNode are both cleared on player death, and
the drag is cleared on every pointer-up. -/
theorem drag_cancellation_behaviour :
    (∀ (worldSpace : Point) (ctx : Ctx) (d : Drag),
      getClosest worldSpace ctx = none →
      moveWorldSpace worldSpace ctx (some d) = some ⟨d.start, none⟩) ∧
    (∀ (selected : Option TowerId) (drag : Option Drag),
      updateLifecycle false selected drag = (none, none)) ∧
    (∀ (ctx : Ctx) (drag : Option Drag) (selected : Option TowerId),
      (pointerUpLeft ctx drag selected).drag = none) := by
  refine ⟨?_, ?_, ?_⟩
  · intro ws ctx d h
    simp [moveWorldSpace, h]
  · intro sel dr
    rfl
  · exact pointerUpLeft_drag_eq_none

/-- Witness for C3 (amended): a concrete fogged pointer-move keeps the
drag alive with a suspended target. -/
theorem drag_cancellation_behaviour_witness :
    moveWorldSpace (0, 0) ctxEmpty (some ⟨(2, 3), some ((1, 0), 1)⟩) =
      some ⟨(2, 3), none⟩ :=
  drag_cancellation_behaviour.1 (0, 0) ctxEmpty ⟨(2, 3), some ((1, 0), 1)⟩
    rfl

/-- C4 counterexample: a path whose head (the source) is foreign but
whose remaining nodes are all owned by the local player is classified
perilous by the code, while the spec's source-excluding reading says it
is not — the classification does depend on the path's source node. -/
theorem perilous_depends_on_source_counterexample :
    perilousPath ctxForeignHead [(0, 0), (1, 0)] = true ∧
    perilousPathSpec ctxForeignHead [(0, 0), (1, 0)] = false := by
  decide

/-- C4 (amended): a path is classified perilous exactly when some node of
the path — the source included — exists in the world and has an owner
different from the local player. -/
theorem perilous_iff_some_node_foreign (ctx : Ctx) (path : List TowerId) :
    perilousPath ctx path = true ↔
      ∃ towerId ∈ path, ∃ tower,
        ctx.world.chunk towerId = some tower ∧
        tower.playerId ≠ ctx.playerId := by
  simp [perilousPath, List.any_eq_true, isPerilous_eq_true_iff]

/-- C5: the derived max-edge-distance equals the minimum of the tower
type's intrinsic ranged distance and the strength's maximum travel
distance when the deployable strength is non-empty, and the intrinsic
ranged distance alone when it is empty. -/
theorem max_edge_distance_derivation (strength : Units)
    (towerEdgeDistance : Nat) :
    (strength.isEmpty = true →
      deriveMaxEdgeDistance strength towerEdgeDistance = towerEdgeDistance) ∧
    (strength.isEmpty = false →
      deriveMaxEdgeDistance strength towerEdgeDistance =
        min towerEdgeDistance strength.maxEdgeDistance) := by
  constructor
  · intro h
    simp [deriveMaxEdgeDistance, h]
  · intro h
    simp [deriveMaxEdgeDistance, h, Nat.min_comm]

/-- Witness for C5: a strength of travel distance 2 from a tower of
ranged distance 3 yields the minimum, 2. -/
theorem max_edge_distance_derivation_witness :
    deriveMaxEdgeDistance ⟨false, true, 2⟩ 3 = min 3 2 :=
  (max_edge_distance_derivation ⟨false, true, 2⟩ 3).2 rfl

/-- C6: a pointer-up ending a drag with `start == current` performs
exactly one selection toggle — deselect if `start` was already selected,
else select it — dispatches no order, and ends the drag. -/
theorem same_node_release_toggles_selection
    (ctx : Ctx) (drag : Option Drag) (selected : Option TowerId)
    (s : TowerId) (ts : ℚ)
    (hzip : Drag.zip drag = some (s, s, ts)) :
    (pointerUpLeft ctx drag selected).command = none ∧
    (pointerUpLeft ctx drag selected).selectedTowerId =
      (if selected = some s then none else some s) ∧
    (pointerUpLeft ctx drag selected).drag = none := by
  rw [Drag.zip_eq_some] at hzip
  subst hzip
  simp [pointerUpLeft, Drag.zip]

/-- Witness for C6: releasing a same-node drag with nothing selected
selects the node and dispatches nothing. -/
theorem same_node_release_toggles_selection_witness :
    (pointerUpLeft ctxRuler (some ⟨(0, 0), some ((0, 0), 0)⟩) none).command =
      none ∧
    (pointerUpLeft ctxRuler
      (some ⟨(0, 0), some ((0, 0), 0)⟩) none).selectedTowerId =
      (if (none : Option TowerId) = some (0, 0) then none else some (0, 0)) ∧
    (pointerUpLeft ctxRuler (some ⟨(0, 0), some ((0, 0), 0)⟩) none).drag =
      none :=
  same_node_release_toggles_selection ctxRuler
    (some ⟨(0, 0), some ((0, 0), 0)⟩) none (0, 0) 0 rfl

/-- C7: a SetViewport order is dispatched only when the computed
rectangle differs from the last-sent one and the rate limiter (period
0.15 seconds) is ready; the limiter is advanced every frame whether or
not a send occurs; and two consecutive sends are always at least one
rate-limit period of frame time apart. -/
theorem setViewport_rate_limited :
    (∀ (computed : ChunkRect) (dt : ℚ) (st : ViewportSync) (cmd : Command),
      (viewportStep computed dt st).2 = some cmd →
      computed ≠ st.lastSent ∧ cmd = Command.setViewport computed ∧
        st.rateLimiter.period ≤ st.rateLimiter.elapsed + dt) ∧
    (∀ (computed : ChunkRect) (dt : ℚ) (st : ViewportSync),
      (viewportStep computed dt st).2 = none →
      ((viewportStep computed dt st).1).rateLimiter.elapsed =
        st.rateLimiter.elapsed + dt) ∧
    (setViewportRateLimit₀.period = 3 / 20 ∧
      setViewportRateLimit₀.elapsed = 0) ∧
    (∀ (st : ViewportSync) (f g : ChunkRect × ℚ)
        (fs : List (ChunkRect × ℚ)),
      ((viewportStep f.1 f.2 st).2).isSome = true →
      ((viewportRun fs (viewportStep f.1 f.2 st).1).2.all
        fun o => o.isNone) = true →
      ((viewportStep g.1 g.2
        (viewportRun fs (viewportStep f.1 f.2 st).1).1).2).isSome = true →
      st.rateLimiter.period ≤ (fs.map Prod.snd).sum + g.2) := by
  refine ⟨?_, ?_, ⟨rfl, rfl⟩, ?_⟩
  · intro computed dt st cmd h
    obtain ⟨h1, h2, h3, -⟩ := viewportStep_some h
    exact ⟨h1, h2, h3⟩
  · intro computed dt st h
    exact viewportStep_none_elapsed computed dt st h
  · intro st f g fs hf hquiet hg
    obtain ⟨cmdf, hcf⟩ := Option.isSome_iff_exists.mp hf
    obtain ⟨cmdg, hcg⟩ := Option.isSome_iff_exists.mp hg
    have h0 : ((viewportStep f.1 f.2 st).1).rateLimiter.elapsed = 0 :=
      (viewportStep_some hcf).2.2.2
    have hrun := viewportRun_quiet_elapsed fs
      (viewportStep f.1 f.2 st).1 hquiet
    have hgle := (viewportStep_some hcg).2.2.1
    have hper1 : ((viewportStep f.1 f.2 st).1).rateLimiter.period =
        st.rateLimiter.period := viewportStep_period f.1 f.2 st
    have hper2 :
        ((viewportRun fs (viewportStep f.1 f.2 st).1).1).rateLimiter.period =
          ((viewportStep f.1 f.2 st).1).rateLimiter.period :=
      viewportRun_period fs (viewportStep f.1 f.2 st).1
    rw [hper2, hper1] at hgle
    rw [hrun, h0] at hgle
    linarith

/-- Witness for C7: with a full period accumulated and a changed
rectangle, the step dispatches, and the theorem recovers the change and
readiness facts. -/
theorem setViewport_rate_limited_witness :
    ((1, 1), (2, 2)) ≠ vsStart.lastSent ∧
    Command.setViewport ((1, 1), (2, 2)) =
      Command.setViewport ((1, 1), (2, 2)) ∧
    vsStart.rateLimiter.period ≤ vsStart.rateLimiter.elapsed + 3 / 20 :=
  setViewport_rate_limited.1 ((1, 1), (2, 2)) (3 / 20) vsStart
    (Command.setViewport ((1, 1), (2, 2)))
    (by rw [viewportStep_eq]; norm_num [vsStart, RateLimiter.new])

/-- C8: with the cursor snapped to a grid cell, the hit test over the
visible towers of that cell's neighbourhood returns `none` exactly when
no visible candidate exists, and otherwise returns the first-enumerated
candidate of minimal squared Euclidean distance to the cursor (strictly
closer than everything enumerated before it, no farther than anything
after it). -/
theorem getClosest_nearest_visible (ctx : Ctx) (point : Point)
    (center : TowerId) (hcc : ctx.closestCell point = some center) :
    (((ctx.towersSquare center).filter fun towerId =>
        isVisible ctx towerId) = [] → getClosest point ctx = none) ∧
    (∀ x, getClosest point ctx = some x →
      ∃ l₁ l₂,
        ((ctx.towersSquare center).filter fun towerId =>
          isVisible ctx towerId) = l₁ ++ x :: l₂ ∧
        (∀ y ∈ l₁, distanceSquared (ctx.asVec2 x) point <
          distanceSquared (ctx.asVec2 y) point) ∧
        (∀ y ∈ l₂, distanceSquared (ctx.asVec2 x) point ≤
          distanceSquared (ctx.asVec2 y) point)) ∧
    (((ctx.towersSquare center).filter fun towerId =>
        isVisible ctx towerId) ≠ [] →
      (getClosest point ctx).isSome = true) := by
  have hform : getClosest point ctx =
      ((ctx.towersSquare center).filter fun towerId =>
        isVisible ctx towerId).foldl (closerCandidate ctx point) none := by
    simp [getClosest, hcc]
  refine ⟨?_, ?_, ?_⟩
  · intro hnil
    rw [hform, hnil]
    rfl
  · intro x hx
    rw [hform] at hx
    cases hl : (ctx.towersSquare center).filter fun towerId =>
        isVisible ctx towerId with
    | nil =>
      rw [hl] at hx
      cases hx
    | cons p rest =>
      rw [hl, List.foldl_cons] at hx
      have hstep : closerCandidate ctx point none p = some p := rfl
      rw [hstep] at hx
      obtain ⟨x2, l₁, l₂, hfold, heq, hstrict, hle⟩ :=
        closestFold_first_min ctx point rest p
      rw [hfold] at hx
      have hxx : x2 = x := Option.some_inj.mp hx
      subst hxx
      exact ⟨l₁, l₂, heq, hstrict, hle⟩
  · intro hne
    rw [hform]
    cases hl : (ctx.towersSquare center).filter fun towerId =>
        isVisible ctx towerId with
    | nil => exact absurd hl hne
    | cons p rest =>
      rw [List.foldl_cons]
      have hstep : closerCandidate ctx point none p = some p := rfl
      rw [hstep]
      obtain ⟨x2, l₁, l₂, hfold, -, -, -⟩ :=
        closestFold_first_min ctx point rest p
      rw [hfold]
      rfl

/-- Witness for C8: with candidates (0,0) and (1,0) and the cursor at
(9/10, 0), the hit test picks (1,0) and the theorem yields its
first-minimiser decomposition. -/
theorem getClosest_nearest_visible_witness :
    ∃ l₁ l₂,
      ((ctxGrid.towersSquare (0, 0)).filter fun towerId =>
        isVisible ctxGrid towerId) = l₁ ++ (1, 0) :: l₂ ∧
      (∀ y ∈ l₁, distanceSquared (ctxGrid.asVec2 (1, 0)) (9 / 10, 0) <
        distanceSquared (ctxGrid.asVec2 y) (9 / 10, 0)) ∧
      (∀ y ∈ l₂, distanceSquared (ctxGrid.asVec2 (1, 0)) (9 / 10, 0) ≤
        distanceSquared (ctxGrid.asVec2 y) (9 / 10, 0)) :=
  (getClosest_nearest_visible ctxGrid (9 / 10, 0) (0, 0) rfl).2.1 (1, 0)
    (by norm_num [getClosest, ctxGrid, mkCtx, isVisible, closerCandidate,
      distanceSquared])

/-- C9: when a drag released onto a distinct node finds a best path equal
to the source tower's stored supply line, the dispatched SetSupplyLine
carries `path: None` (clearing it); the path is sent only when it
differs from the stored supply line. -/
theorem supply_line_dedup
    (ctx : Ctx) (drag : Option Drag) (s c : TowerId) (ts : ℚ)
    (src dst : Tower) (path : List TowerId)
    (hzip : Drag.zip drag = some (s, c, ts)) (hne : s ≠ c)
    (hs : ctx.world.chunk s = some src) (hc : ctx.world.chunk c = some dst)
    (hpath : ctx.world.findBestPath s c
      (deriveMaxEdgeDistance src.forceUnits src.towerType.rangedDistance)
      ctx.playerId (isVisible ctx) = some path)
    (hper : perilousPath ctx path = false)
    (hgen : src.towerType.generatesMobileUnits = true)
    (hshort : deriveMaxEdgeDistance src.forceUnits
      src.towerType.rangedDistance = src.towerType.rangedDistance) :
    (src.supplyLine = some path →
      (pointerUpLeft ctx drag (some s)).command =
        some (Command.setSupplyLine s none)) ∧
    (src.supplyLine ≠ some path →
      (pointerUpLeft ctx drag (some s)).command =
        some (Command.setSupplyLine s (some path))) := by
  rw [pointerUpLeft_release ctx (some s) hzip hne hs hc]
  have hsel : (if (some s : Option TowerId) ≠ some s
      then none else some s) = some s := by simp
  rw [hsel, dragReleaseOrder_supply_value s hpath hper hgen hshort]
  constructor
  · intro h
    rw [if_pos h]
  · intro h
    rw [if_neg h]

/-- Witness for C9: a drag whose found path equals the stored supply line
dispatches a clearing SetSupplyLine with `path: None`. -/
theorem supply_line_dedup_witness :
    (pointerUpLeft ctxSupplyLine
      (some ⟨(0, 0), some ((1, 0), 0)⟩) (some (0, 0))).command =
      some (Command.setSupplyLine (0, 0) none) :=
  (supply_line_dedup ctxSupplyLine (some ⟨(0, 0), some ((1, 0), 0)⟩)
    (0, 0) (1, 0) 0 towerSupplySourceLine towerHome [(0, 0), (1, 0)]
    rfl (by decide) rfl rfl rfl (by decide) rfl rfl).1 rfl

/-- C10: a tower id absent from the world chunk is never perilous, so a
vanished path node never counts toward classifying a path as perilous. -/
theorem vanished_tower_not_perilous (ctx : Ctx) (towerId : TowerId)
    (h : ctx.world.chunk towerId = none) :
    isPerilous ctx towerId = false ∧
    ∀ path : List TowerId,
      perilousPath ctx path =
        perilousPath ctx
          (path.filter fun i => (ctx.world.chunk i).isSome) := by
  constructor
  · simp [isPerilous, h]
  · intro path
    induction path with
    | nil => rfl
    | cons p rest ih =>
      simp only [perilousPath, List.any_cons, List.filter_cons] at ih ⊢
      cases hp : ctx.world.chunk p with
      | none =>
        have h1 : isPerilous ctx p = false := by simp [isPerilous, hp]
        simp [hp, h1, ih]
      | some tw =>
        simp [hp, ih]

/-- Witness for C10: in an empty world every tower id is non-perilous. -/
theorem vanished_tower_not_perilous_witness :
    isPerilous ctxEmpty (5, 5) = false :=
  (vanished_tower_not_perilous ctxEmpty (5, 5) rfl).1

end Kiomet
